import Mathlib

/-!
Verification development for the `patent_tool` repository.

The Python sources (`src/patent_extract.py`, `src/batch_patent.py`) are
shallowly embedded below: pure functions become Lean functions, the parsed
HTML DOM becomes an explicit tree type, and the effectful batch loop becomes
a fold over an explicit environment that records which network fetches were
issued (and with which timeout), mirroring the side effects of the code.

All definitions are executable (structural recursion only), so every
counterexample and witness is settled by kernel evaluation.
-/

set_option linter.unusedVariables false

namespace PatentTool

/-! ## Basic character/string helpers

Python semantics mirrored on `List Char`:
`str.strip` / `\s` use the ASCII whitespace set `" \t\n\r\x0b\x0c"`
(the Unicode extension of Python's whitespace set is not modelled; no
theorem below depends on non-ASCII whitespace).
-/

/-- Python whitespace class (ASCII part): `' '`, `'\t'`, `'\n'`, `'\r'`, `'\x0b'`, `'\x0c'`. -/
def isPySpace (c : Char) : Bool :=
  c = ' ' || c = '\t' || c = '\n' || c = '\r' || c = '\x0b' || c = '\x0c'

/-- ASCII decimal digit. -/
def isDigitCh (c : Char) : Bool :=
  '0' ≤ c && c ≤ '9'

/-- Python `str.strip()` on a char list. -/
def pyStripL (l : List Char) : List Char :=
  ((l.dropWhile isPySpace).reverse.dropWhile isPySpace).reverse

/-- Python `str.strip()`. -/
def pyStrip (s : String) : String :=
  ⟨pyStripL s.data⟩

/-- Python `str.lower()` (ASCII letters only; sufficient for the inputs used). -/
def lowerCh (c : Char) : Char :=
  if 'A' ≤ c && c ≤ 'Z' then Char.ofNat (c.toNat + 32) else c

def lowerL (l : List Char) : List Char := l.map lowerCh

/-- Case-insensitive starts-with test (Python-style lowercase compare). -/
def startsCI : List Char → List Char → Bool
  | [], _ => true
  | _ :: _, [] => false
  | p :: ps, c :: cs => lowerCh p = lowerCh c && startsCI ps cs

/-- Case-sensitive starts-with test. -/
def startsL : List Char → List Char → Bool
  | [], _ => true
  | _ :: _, [] => false
  | p :: ps, c :: cs => p = c && startsL ps cs

/-- Python `needle in haystack` substring test. -/
def containsSub (needle : List Char) : List Char → Bool
  | [] => startsL needle []
  | c :: cs => startsL needle (c :: cs) || containsSub needle cs

/-- Numeric value of a digit run. -/
def digitsToNat (l : List Char) : Nat :=
  l.foldl (fun acc c => acc * 10 + (c.toNat - '0'.toNat)) 0

/-- Python `int(s)`: surrounding whitespace stripped, optional single sign,
then a non-empty all-digit body; `none` models `ValueError`.
(Underscore digit separators accepted by CPython are not modelled.) -/
def pyIntL (l : List Char) : Option Int :=
  let t := pyStripL l
  match t with
  | '-' :: rest =>
      if rest ≠ [] && rest.all isDigitCh then some (-(digitsToNat rest : Int)) else none
  | '+' :: rest =>
      if rest ≠ [] && rest.all isDigitCh then some (digitsToNat rest : Int) else none
  | rest =>
      if rest ≠ [] && rest.all isDigitCh then some (digitsToNat rest : Int) else none

def pyInt (s : String) : Option Int := pyIntL s.data

/-- Python `str.isdigit()` (ASCII digits). -/
def pyIsDigit (s : String) : Bool :=
  s.data ≠ [] && s.data.all isDigitCh

/-- Part of a string before the first `'.'` — `text.split('.')[0]`. -/
def beforeDot (l : List Char) : List Char :=
  l.takeWhile (fun c => c ≠ '.')

mutual

/-- Model of `re.sub(r"\s{2,}", " ", ·)`: collapse every run of two or more
whitespace characters to a single space (runs of length one are kept as-is). -/
def collapseWs : List Char → List Char
  | [] => []
  | c :: rest =>
    if isPySpace c then
      match rest with
      | [] => [c]
      | d :: rest2 =>
        if isPySpace d then ' ' :: skipWsRun rest2
        else c :: d :: collapseWs rest2
    else c :: collapseWs rest

/-- Skip the remainder of a whitespace run, then continue collapsing. -/
def skipWsRun : List Char → List Char
  | [] => []
  | d :: rest => if isPySpace d then skipWsRun rest else d :: collapseWs rest

end

mutual

/-- Model of `re.sub(r"\n{3,}", "\n\n", ·)`: collapse runs of three or more newlines
to exactly two. -/
def collapseNl : List Char → List Char
  | [] => []
  | c :: rest =>
    if c = '\n' then
      match rest with
      | [] => ['\n']
      | d :: rest2 =>
        if d = '\n' then
          match rest2 with
          | [] => ['\n', '\n']
          | e :: rest3 =>
            if e = '\n' then '\n' :: '\n' :: skipNlRun rest3
            else '\n' :: '\n' :: collapseNl (e :: rest3)
        else '\n' :: collapseNl (d :: rest2)
    else c :: collapseNl rest

/-- Skip the remainder of a newline run, then continue collapsing. -/
def skipNlRun : List Char → List Char
  | [] => []
  | d :: rest => if d = '\n' then skipNlRun rest else d :: collapseNl rest

end

/-! ## DOM model

The BeautifulSoup document tree is modelled as a tree of element/text
nodes.  A mutual inductive (`Node` / `NodeList`) is used instead of a
nested `List Node` so that every traversal is plain structural recursion
and reduces in the kernel.  HTML parsing itself (`BeautifulSoup(html,
"html.parser")`) is deterministic and is modelled as the identity on an
already-parsed tree.
-/

mutual

inductive Node where
  | text (s : String)
  | elem (tag : String) (attrs : List (String × String)) (children : NodeList)
deriving DecidableEq

inductive NodeList where
  | nil
  | cons (hd : Node) (tl : NodeList)
deriving DecidableEq

end

def NodeList.ofList : List Node → NodeList
  | [] => .nil
  | n :: ns => .cons n (NodeList.ofList ns)

/-- Element smart constructor taking an ordinary list of children. -/
def Node.el (tag : String) (attrs : List (String × String)) (children : List Node) : Node :=
  .elem tag attrs (NodeList.ofList children)

/-- Text node shorthand. -/
def Node.txt (s : String) : Node := .text s

/-- Model of `tag.get(key)`: attribute lookup (text nodes have no attributes). -/
def Node.attr : Node → String → Option String
  | .text _, _ => none
  | .elem _ attrs _, key => (attrs.find? (fun kv => kv.1 = key)).map (·.2)

/-- Model of `tag.get(key, default)`. -/
def Node.attrD (n : Node) (key dflt : String) : String :=
  (n.attr key).getD dflt

/-- Split a `class` attribute value on whitespace (BeautifulSoup treats
`class` as a multi-valued attribute). -/
def splitClasses (s : String) : List String :=
  ((s.data.foldr
      (fun c (acc : List Char × List (List Char)) =>
        if isPySpace c then
          if acc.1 = [] then acc else ([], acc.1 :: acc.2)
        else (c :: acc.1, acc.2))
      ([], [])) |> fun acc => if acc.1 = [] then acc.2 else acc.1 :: acc.2
  ).map (fun l => (⟨l⟩ : String))

/-- The element's list of CSS classes (empty when no `class` attribute). -/
def Node.classes (n : Node) : List String :=
  match n.attr "class" with
  | none => []
  | some v => splitClasses v

/-- Model of `class_=c` filter: does the element carry class `c`? -/
def Node.hasClass (n : Node) (c : String) : Bool :=
  n.classes.contains c

/-- Is this an element with the given tag name? -/
def Node.tagIs : Node → String → Bool
  | .text _, _ => false
  | .elem t _ _, tag => t = tag

mutual

/-- All nodes strictly below `n`, in document (preorder) order —
the traversal order of BeautifulSoup's `find_all` / `next_elements`. -/
def Node.descendants : Node → List Node
  | .text _ => []
  | .elem _ _ cs => NodeList.descList cs

def NodeList.descList : NodeList → List Node
  | .nil => []
  | .cons n ns => n :: Node.descendants n ++ NodeList.descList ns

end

mutual

/-- The strings of all text nodes below `n`, in document order. -/
def Node.strings : Node → List String
  | .text s => [s]
  | .elem _ _ cs => NodeList.stringsList cs

def NodeList.stringsList : NodeList → List String
  | .nil => []
  | .cons n ns => Node.strings n ++ NodeList.stringsList ns

end

/-- Join a list of strings with a separator. -/
def joinSep (sep : String) : List String → String
  | [] => ""
  | [s] => s
  | s :: rest => s ++ sep ++ joinSep sep rest

/-- Model of `tag.get_text(separator=sep, strip=True)`: each string is stripped,
empty results dropped, remainder joined with `sep`. -/
def Node.getTextStripSep (n : Node) (sep : String) : String :=
  joinSep sep ((n.strings.map pyStrip).filter (fun s => s ≠ ""))

/-- Model of `tag.get_text(strip=True)` (default empty separator). -/
def Node.getTextStrip (n : Node) : String := n.getTextStripSep ""

/-- Model of `tag.get_text()` / `tag.text`: plain concatenation of all strings. -/
def Node.getTextRaw (n : Node) : String :=
  joinSep "" n.strings

/-- Model of `find_all(p)` over descendants, document order. -/
def Node.findAll (n : Node) (p : Node → Bool) : List Node :=
  n.descendants.filter p

/-- Model of `find(p)`: first matching descendant or `None`. -/
def Node.findFirst (n : Node) (p : Node → Bool) : Option Node :=
  (n.findAll p).head?

mutual

/-- Remove every `<span class="google-src-text">` subtree (the
foreign-language shadow text inserted by Google's translation markup). -/
def Node.removeGoogleSrc : Node → Node
  | .text s => .text s
  | .elem t a cs => .elem t a (NodeList.removeGoogleSrcList cs)

def NodeList.removeGoogleSrcList : NodeList → NodeList
  | .nil => .nil
  | .cons n ns =>
    if n.tagIs "span" && n.hasClass "google-src-text" then
      NodeList.removeGoogleSrcList ns
    else
      .cons (Node.removeGoogleSrc n) (NodeList.removeGoogleSrcList ns)

end

mutual

/-- Replace every `<span class="patent-image-not-available">` with the
literal text `"[CHEMICAL FORMULA]"` (`span.replace_with(...)`). -/
def Node.replaceImgSpans : Node → Node
  | .text s => .text s
  | .elem t a cs => .elem t a (NodeList.replaceImgSpansList cs)

def NodeList.replaceImgSpansList : NodeList → NodeList
  | .nil => .nil
  | .cons n ns =>
    if n.tagIs "span" && n.hasClass "patent-image-not-available" then
      .cons (.text "[CHEMICAL FORMULA]") (NodeList.replaceImgSpansList ns)
    else
      .cons (Node.replaceImgSpans n) (NodeList.replaceImgSpansList ns)

end

/-- Model of `BeautifulSoup(str(tag), "html.parser")`: re-parsing a serialized tag
yields a document whose sole child is that tag; modelled as wrapping in a
synthetic `[document]` root (so that `find_all` on the copy also visits
the tag itself, as BeautifulSoup does). -/
def asDoc (n : Node) : Node :=
  Node.el "[document]" [] [n]

/-! ## `keep_only_ascii` (src/patent_extract.py lines 122-135) -/

/-- Model of `keep_only_ascii(text)`: `if not text: return ""` followed by
`"".join(char for char in text if ord(char) < 128)`. -/
def keep_only_ascii (text : String) : String :=
  if text = "" then ""
  else ⟨text.data.filter (fun c => c.toNat < 128)⟩

/-! ## Models of the specific regular expressions used by the extractor

Python's `re` uses leftmost-position, first-alternative matching for these
patterns; each is modelled by a direct scanner with those semantics. -/

/-- Drop a literal (case-sensitive); `none` if it is not a prefix. -/
def dropExact : List Char → List Char → Option (List Char)
  | [], l => some l
  | _, [] => none
  | p :: ps, c :: cs => if p = c then dropExact ps cs else none

/-- Drop a literal, ASCII case-insensitively. -/
def dropCI : List Char → List Char → Option (List Char)
  | [], l => some l
  | _, [] => none
  | p :: ps, c :: cs => if lowerCh p = lowerCh c then dropCI ps cs else none

/-- Require and drop at least one whitespace character (`\s+`, greedy). -/
def dropWs1 (l : List Char) : Option (List Char) :=
  match l with
  | c :: rest => if isPySpace c then some (rest.dropWhile isPySpace) else none
  | [] => none

/-- Maximal digit run at the head together with its value; `none` if empty (`\d+`). -/
def headDigits (l : List Char) : Option (Nat × List Char) :=
  let d := l.takeWhile isDigitCh
  if d = [] then none else some (digitsToNat d, l.dropWhile isDigitCh)

/-- Scan positions left to right (including the end-of-string position),
returning the first position where `f` matches — `re.search` order. -/
def searchSuff (f : List Char → Option α) : List Char → Option α
  | [] => f []
  | c :: rest =>
    match f (c :: rest) with
    | some v => some v
    | none => searchSuff f rest

/-- Value of a maximal non-empty digit run at the head. -/
def headDigitVal (l : List Char) : Option Nat :=
  (headDigits l).map Prod.fst

/-- One-position match of
`claim-?(\d+)|c(\d+)$|CLM-0*(\d+)|en-cl(\d+)|num="?(\d+)"?`
(alternatives in regex order), returning the numeric value of the single
captured group. -/
def claimNumAt (l : List Char) : Option Nat :=
  -- claim-?(\d+)
  (match dropExact "claim".data l with
   | some rest =>
     (match rest with
      | '-' :: r2 => headDigitVal r2
      | r2 => headDigitVal r2)
   | none => none).orElse fun _ =>
  -- c(\d+)$
  (match l with
   | 'c' :: rest =>
     match headDigits rest with
     | some (v, r) => if r = [] then some v else none
     | none => none
   | _ => none).orElse fun _ =>
  -- CLM-0*(\d+)
  (match dropExact "CLM-".data l with
   | some rest => headDigitVal rest
   | none => none).orElse fun _ =>
  -- en-cl(\d+)
  (match dropExact "en-cl".data l with
   | some rest => headDigitVal rest
   | none => none).orElse fun _ =>
  -- num="?(\d+)"?
  (match dropExact "num=".data l with
   | some rest =>
     (match rest with
      | '"' :: r2 => headDigitVal r2
      | r2 => headDigitVal r2)
   | none => none)

/-- Model of `claim_num_pattern.search(s)` followed by taking the first non-`None`
group and `int(...)` (leading zeros do not change the value). -/
def claimNumSearch (s : String) : Option Nat :=
  searchSuff claimNumAt s.data

/-- One-position match of
`(?:according to|as claimed in|of|in|as in|per)\s+claim\s+(\d+)` with
`re.IGNORECASE`: keywords tried in regex alternation order, each followed
by the common tail. -/
def depAt (l : List Char) : Option Nat :=
  let tail (r : List Char) : Option Nat :=
    dropWs1 r |>.bind fun r1 =>
    dropCI "claim".data r1 |>.bind fun r2 =>
    dropWs1 r2 |>.bind fun r3 =>
    (headDigits r3).map (·.1)
  (dropCI "according to".data l |>.bind tail).orElse fun _ =>
  (dropCI "as claimed in".data l |>.bind tail).orElse fun _ =>
  (dropCI "of".data l |>.bind tail).orElse fun _ =>
  (dropCI "in".data l |>.bind tail).orElse fun _ =>
  (dropCI "as in".data l |>.bind tail).orElse fun _ =>
  (dropCI "per".data l |>.bind tail)

/-- Model of `dependency_pattern.search(text)` returning `int(match.group(1))`. -/
def depSearch (s : String) : Option Nat :=
  searchSuff depAt s.data

/-- Model of `claim_pattern.search(text)` for `^\s*(\d+)[\.\)]` (anchored, so only a
match at the start counts); returns the value and `match.end()`. -/
def leadClaimNum (s : String) : Option (Nat × Nat) :=
  let l := s.data
  let ws := l.takeWhile isPySpace
  let r1 := l.dropWhile isPySpace
  let d := r1.takeWhile isDigitCh
  let r2 := r1.dropWhile isDigitCh
  if d = [] then none
  else
    match r2 with
    | c :: _ =>
      if c = '.' || c = ')' then some (digitsToNat d, ws.length + d.length + 1)
      else none
    | [] => none

/-- Python falsiness of the running `dependent_on` value: `None` and `0`
are both falsy (`if not dependent_on: ...`). -/
def optFalsy : Option Int → Bool
  | none => true
  | some v => v = 0

/-- Model of `re.sub(r"^(Current|Original)\s+<role>:?\s*", "", s)`: strip one
leading role-label prefix (anchored, so at most one substitution). -/
def stripLabelRole (role : String) (s : String) : String :=
  let attempt (kw : List Char) : Option (List Char) :=
    dropExact kw s.data |>.bind fun r1 =>
    dropWs1 r1 |>.bind fun r2 =>
    dropExact role.data r2 |>.bind fun r3 =>
    some ((match r3 with
           | ':' :: t => t
           | t => t).dropWhile isPySpace)
  match attempt "Current".data with
  | some r => ⟨r⟩
  | none =>
    match attempt "Original".data with
    | some r => ⟨r⟩
    | none => s

/-! ## Party-name extraction
(`extract_assignees`, src/patent_extract.py lines 258-345;
`extract_inventors`, lines 671-746) -/

/-- Method 1: elements with `itemprop=<roleProp>`, preferring a nested
`itemprop="name"` element's text; first-appearance dedup while collecting. -/
def partyMethod1 (soup : Node) (roleProp : String) : List String :=
  (soup.findAll (fun n => n.attr "itemprop" = some roleProp)).foldl
    (fun acc e =>
      let name :=
        match e.findFirst (fun m => m.attr "itemprop" = some "name") with
        | some nameElem => nameElem.getTextStrip
        | none => e.getTextStrip
      if name ≠ "" && !acc.contains name then acc ++ [name] else acc)
    []

/-- Method 2: a section located by id, searched for `li/span/div/a`
children whose text does not contain the role label, "Current" or
"Original". -/
def partyMethod2 (soup : Node) (secId1 secId2 roleLabel : String) : List String :=
  match (soup.findFirst (fun n => n.attr "id" = some secId1)).orElse
          (fun _ => soup.findFirst (fun n => n.attr "id" = some secId2)) with
  | none => []
  | some sec =>
    (sec.findAll (fun m =>
        m.tagIs "li" || m.tagIs "span" || m.tagIs "div" || m.tagIs "a")).foldl
      (fun acc item =>
        let name := item.getTextStrip
        if name ≠ "" && !acc.contains name
            && !(containsSub roleLabel.data name.data
                 || containsSub "Current".data name.data
                 || containsSub "Original".data name.data)
        then acc ++ [name] else acc)
      []

/-- Method 3: `dt` elements whose lowercase text contains the role
keyword; `dt.find_next("dd")` is the first `dd` after the `dt` in
document order. -/
def partyMethod3 (soup : Node) (roleLower : String) : List String :=
  let nodes := soup.descendants
  nodes.enum.foldl
    (fun acc (p : Nat × Node) =>
      let (i, n) := p
      if n.tagIs "dt" && containsSub roleLower.data (lowerL n.getTextRaw.data) then
        match (nodes.drop (i + 1)).find? (fun m => m.tagIs "dd") with
        | some dd =>
          let name := dd.getTextStrip
          if name ≠ "" && !acc.contains name then acc ++ [name] else acc
        | none => acc
      else acc)
    []

/-- Method 4: table rows with at least two cells where the first cell's
lowercase text contains the role keyword. -/
def partyMethod4 (soup : Node) (roleLower : String) : List String :=
  (soup.findAll (fun n => n.tagIs "tr")).foldl
    (fun acc row =>
      match row.findAll (fun n => n.tagIs "td") with
      | c0 :: c1 :: _ =>
        if containsSub roleLower.data (lowerL c0.getTextRaw.data) then
          let value := c1.getTextStrip
          if value ≠ "" && !acc.contains value then acc ++ [value] else acc
        else acc
      | _ => acc)
    []

/-- Method 5 (assignees only): Google Patents `div`s whose class mentions
`patent-assignee` or `assignee-list`; names longer than one character. -/
def assigneeMethod5 (soup : Node) : List String :=
  (soup.findAll (fun d => d.tagIs "div" && d.classes.any (fun c =>
      containsSub "patent-assignee".data c.data
      || containsSub "assignee-list".data c.data))).foldl
    (fun acc d =>
      (d.findAll (fun m => m.tagIs "a" || m.tagIs "span" || m.tagIs "div")).foldl
        (fun acc item =>
          let name := item.getTextStrip
          if name ≠ "" && !acc.contains name && name.length > 1
          then acc ++ [name] else acc)
        acc)
    []

/-- The raw assignee name list before the final clean-up: methods 1-5,
each later method running only when all earlier ones produced nothing. -/
def rawAssignees (soup : Node) : List String :=
  let m1 := partyMethod1 soup "assignee"
  if m1 ≠ [] then m1 else
  let m2 := partyMethod2 soup "assigneeSection" "patent-assignees" "Assignee"
  if m2 ≠ [] then m2 else
  let m3 := partyMethod3 soup "assignee"
  if m3 ≠ [] then m3 else
  let m4 := partyMethod4 soup "assignee"
  if m4 ≠ [] then m4 else
  assigneeMethod5 soup

/-- The raw inventor name list: methods 1-4 with the inventor keyword. -/
def rawInventors (soup : Node) : List String :=
  let m1 := partyMethod1 soup "inventor"
  if m1 ≠ [] then m1 else
  let m2 := partyMethod2 soup "inventorSection" "patent-inventors" "Inventor"
  if m2 ≠ [] then m2 else
  let m3 := partyMethod3 soup "inventor"
  if m3 ≠ [] then m3 else
  partyMethod4 soup "inventor"

/-- The final "Clean up results" loop shared by both extractors: strip the
role-label, trim, drop empties, first-appearance dedup. -/
def cleanPartyNames (role : String) (names : List String) : List String :=
  names.foldl
    (fun acc raw =>
      let cleaned := pyStrip (stripLabelRole role raw)
      if cleaned ≠ "" ∧ cleaned ∉ acc then acc ++ [cleaned] else acc)
    []

/-- Model of `extract_assignees(soup)`. -/
def extract_assignees (soup : Node) : List String :=
  cleanPartyNames "Assignee" (rawAssignees soup)

/-- Model of `extract_inventors(soup)`. -/
def extract_inventors (soup : Node) : List String :=
  cleanPartyNames "Inventor" (rawInventors soup)

/-! ## Claims parser (`extract_claims`, src/patent_extract.py lines 385-668) -/

/-- Model of `PatentClaim` dataclass: number, text and dependency information. -/
structure PatentClaim where
  number : Int
  text : String
  dependent_on : Option Int
deriving DecidableEq, Repr

mutual

/-- Collect every `div.claim` strictly below the node in document order,
each paired with whether it sits inside another `div.claim`
(`find_parent('div', class_='claim')`) and with its direct parent's class
list (`claim_div.parent.get('class', [])`). -/
def Node.claimDivsAux : Node → Bool → List (Node × Bool × List String)
  | .text _, _ => []
  | .elem t a cs, inside => NodeList.claimDivsList cs inside (Node.classes (.elem t a cs))

def NodeList.claimDivsList : NodeList → Bool → List String → List (Node × Bool × List String)
  | .nil, _, _ => []
  | .cons c ns, inside, pcls =>
    let isCD := c.tagIs "div" && c.hasClass "claim"
    (if isCD then [(c, inside, pcls)] else [])
      ++ Node.claimDivsAux c (inside || isCD)
      ++ NodeList.claimDivsList ns inside pcls

end

/-- Assemble claim text from `div.claim-text` children: each is re-parsed,
its `patent-image-not-available` spans replaced by the literal marker,
stripped text collected, empties dropped, parts joined by one space. -/
def claimTextFromParts (textDivs : List Node) : String :=
  joinSep " "
    (((textDivs.map (fun e => (asDoc e.replaceImgSpans).getTextStrip))).filter
      (fun s => s ≠ ""))

/-- Method 1's claim-number resolution: the `num` attribute, else the id
patterns, else the leading numeral of the text before the first period;
then `int(...)` (`none` = "skip this claim"). -/
def method1Num (cdiv : Node) (cid : String) : Option Int :=
  let numStr0 := cdiv.attrD "num" ""
  let numStr1 :=
    if numStr0 = "" && cid ≠ "" then
      match claimNumSearch cid with
      | some v => toString v
      | none => ""
    else numStr0
  let numStr2 :=
    if numStr1 = "" then
      let firstText : String := ⟨beforeDot (pyStripL cdiv.getTextRaw.data)⟩
      if pyIsDigit firstText then firstText else ""
    else numStr1
  pyInt numStr2

/-- Method 1's claim-text assembly: `div.claim-text` parts (else the raw
div text), whitespace runs collapsed, then the leading
`"<num>. "` / `"<num>."` / `"<num> "` stripped. -/
def method1Text (cdiv : Node) (claimNum : Int) : String :=
  let textDivs := cdiv.findAll (fun m => m.tagIs "div" && m.hasClass "claim-text")
  let claimText0 :=
    if textDivs ≠ [] then claimTextFromParts textDivs else cdiv.getTextStrip
  let collapsed := collapseWs claimText0.data
  let numTag := toString claimNum
  if startsL (numTag.data ++ ['.', ' ']) collapsed then
    ⟨collapsed.drop (numTag.length + 2)⟩
  else if startsL (numTag.data ++ ['.']) collapsed then
    ⟨collapsed.drop (numTag.length + 1)⟩
  else if startsL (numTag.data ++ [' ']) collapsed then
    ⟨collapsed.drop (numTag.length + 1)⟩
  else ⟨collapsed⟩

/-- The `claim-ref` scan: each reference whose `idref` resolves to a
number smaller than the claim's own overwrites the running value. -/
def refsDep (claimNum : Int) (refs : List Node) : Option Int :=
  refs.foldl
    (fun dep ref =>
      let refId := ref.attrD "idref" ""
      if refId ≠ "" then
        match claimNumSearch refId with
        | some v => if (v : Int) < claimNum then some (v : Int) else dep
        | none => dep
      else dep)
    none

/-- The shared textual-dependency check: a matched reference is accepted
only when smaller than the claim's own number, otherwise the running
value `dflt` is kept. -/
def textualDep (claimNum : Int) (dflt : Option Int) (text : String) : Option Int :=
  match depSearch text with
  | some v => if (v : Int) < claimNum then some (v : Int) else dflt
  | none => dflt

/-- Method 1's full dependency detection: `claim-ref` elements, then the
text, then the `claim-dependent` parent-class default of `number - 1`. -/
def method1Dep (cdiv : Node) (parentCls : List String) (claimNum : Int)
    (claimText : String) : Option Int :=
  let dep0 := refsDep claimNum (cdiv.findAll (fun n => n.tagIs "claim-ref"))
  let dep1 := if optFalsy dep0 then textualDep claimNum dep0 claimText else dep0
  if optFalsy dep1 && parentCls.contains "claim-dependent" then
    let depA := textualDep claimNum dep1 claimText
    if optFalsy depA && claimNum > 1 then some (claimNum - 1) else depA
  else dep1

/-- One iteration of the Method-1 loop body over `(claims, processed_claims)`. -/
def method1Step (st : List PatentClaim × List String)
    (t : Node × Bool × List String) : List PatentClaim × List String :=
  let (claims, processed) := st
  let (cdiv, inside, parentCls) := t
  let cid := cdiv.attrD "id" ""
  if processed.contains cid || inside then st
  else
    match method1Num cdiv cid with
    | none => st
    | some claimNum =>
      let claimText := method1Text cdiv claimNum
      let dep := method1Dep cdiv parentCls claimNum claimText
      if claimText ≠ "" then
        (claims ++ [⟨claimNum, claimText, dep⟩],
         processed ++ [if cid ≠ "" then cid else toString claimNum])
      else st

/-- Method 1: standard format with `div.claim` elements. -/
def method1Claims (copy : Node) : List PatentClaim :=
  ((copy.claimDivsAux false).foldl method1Step ([], [])).1

/-- Method 2: claims within ordered lists (WO applications); the 1-based
position is the default number, overridden by a leading `"<num>."`/`"<num>)"`. -/
def method2Claims (copy : Node) : List PatentClaim :=
  (copy.findAll (fun n => n.tagIs "ol")).foldl
    (fun claims ol =>
      (ol.findAll (fun n => n.tagIs "li")).enum.foldl
        (fun claims (p : Nat × Node) =>
          let (idx, li) := p
          let text0 := li.getTextStrip
          let numText : Int × String :=
            match leadClaimNum text0 with
            | some (v, stop) => ((v : Int), pyStrip ⟨text0.data.drop stop⟩)
            | none => ((idx : Int) + 1, text0)
          let claimNum := numText.1
          let claimText := numText.2
          let dep := textualDep claimNum none claimText
          if claimText ≠ "" then claims ++ [⟨claimNum, claimText, dep⟩] else claims)
        claims)
    []

/-- Method 3: original Google Patents format with `<claim>` elements; an
explicit `depends` attribute is read without any smaller-than guard. -/
def method3Claims (copy : Node) : List PatentClaim :=
  (copy.findAll (fun n => n.tagIs "claim")).foldl
    (fun claims celem =>
      let numStr0 := celem.attrD "num" ""
      let numStr :=
        if numStr0 = "" then
          match celem.attr "id" with
          | some cid =>
            match claimNumSearch cid with
            | some v => toString v
            | none => ""
          | none => ""
        else numStr0
      match pyInt numStr with
      | none => claims
      | some claimNum =>
        let claimText := celem.getTextStrip
        let dep0 : Option Int :=
          match celem.attr "depends" with
          | some d => pyInt d
          | none => none
        let dep1 : Option Int :=
          if optFalsy dep0 then textualDep claimNum dep0 claimText else dep0
        if claimText ≠ "" then claims ++ [⟨claimNum, claimText, dep1⟩] else claims)
    []

/-- Does the lookahead `(?:(?:\d+)\.|$)` hold at this suffix? -/
def lookaheadOk (l : List Char) : Bool :=
  match l with
  | [] => true
  | _ =>
    match headDigits l with
    | some (_, r) =>
      match r with
      | '.' :: _ => true
      | _ => false
    | none => false

/-- Non-greedy `(.*?)` up to the first position where the lookahead holds. -/
def lazySplit : List Char → List Char × List Char
  | [] => ([], [])
  | c :: rest =>
    if lookaheadOk (c :: rest) then ([], c :: rest)
    else
      let (a, b) := lazySplit rest
      (c :: a, b)

/-- One match attempt of `(\d+)\.\s+(.*?)(?=(?:\d+)\.|$)` at this position:
returns the captured number, the raw captured text, and the rest of the
input after the match. -/
def tryM4 (l : List Char) : Option (Nat × String × List Char) :=
  match headDigits l with
  | none => none
  | some (v, r1) =>
    match r1 with
    | '.' :: r2 =>
      match r2 with
      | c :: _ =>
        if isPySpace c then
          let r3 := r2.dropWhile isPySpace
          let (txt, rest) := lazySplit r3
          some (v, ⟨txt⟩, rest)
        else none
      | [] => none
    | _ => none

/-- Model of `re.finditer` scan: on a match, resume at the match end; otherwise
advance one position.  Fuel is the input length (every step consumes at
least one character). -/
def method4Go : Nat → List Char → List (Nat × String)
  | 0, _ => []
  | _ + 1, [] => []
  | fuel + 1, c :: rest =>
    match tryM4 (c :: rest) with
    | some (v, txt, remaining) => (v, txt) :: method4Go fuel remaining
    | none => method4Go fuel rest

/-- Method 4: last resort — parse claims from the section's plain text. -/
def method4Claims (copy : Node) : List PatentClaim :=
  let text := copy.getTextRaw
  (method4Go text.data.length text.data).foldl
    (fun claims (m : Nat × String) =>
      let claimNum : Int := m.1
      let claimText := pyStrip m.2
      let dep := textualDep claimNum none claimText
      if claimText ≠ "" then claims ++ [⟨claimNum, claimText, dep⟩] else claims)
    []

/-- The id filter of the targeted claim-one lookup:
`id=lambda x: x and ('cl0001' in x or 'cl001' in x or 'cl01' in x or 'cl1' in x)`. -/
def claim1DivPred (n : Node) : Bool :=
  n.tagIs "div" &&
  (match n.attr "id" with
   | some x =>
     x ≠ "" &&
     (containsSub "cl0001".data x.data || containsSub "cl001".data x.data
      || containsSub "cl01".data x.data || containsSub "cl1".data x.data)
   | none => false)

/-- Special handling for a missing claim 1: when the first extracted claim
is numbered above 1, look for a `div` whose id contains a known
claim-one fragment and append its assembled text as claim 1. -/
def addMissingClaim1 (copy : Node) (claims : List PatentClaim) : List PatentClaim :=
  match claims with
  | [] => claims
  | c0 :: _ =>
    if !(claims.any (fun c => c.number = 1)) && c0.number > 1 then
      match copy.findFirst claim1DivPred with
      | some claim1Div =>
        if claim1Div.findAll (fun m => m.tagIs "div" && m.hasClass "claim-text") ≠ [] then
          claims ++
            [⟨1,
              claimTextFromParts
                (claim1Div.findAll (fun m => m.tagIs "div" && m.hasClass "claim-text")),
              none⟩]
        else claims
      | none => claims
    else claims

/-- Stable insertion into a list sorted by claim number (new element goes
before existing equal numbers' successors, i.e. after earlier-listed
equals — matching Python's stable `list.sort(key=...)`). -/
def insClaim (c : PatentClaim) : List PatentClaim → List PatentClaim
  | [] => [c]
  | d :: ds => if d.number < c.number then d :: insClaim c ds else c :: d :: ds

/-- Stable ascending sort by `number` (`claims.sort(key=lambda c: c.number)`). -/
def sortClaims : List PatentClaim → List PatentClaim
  | [] => []
  | c :: cs => insClaim c (sortClaims cs)

mutual

/-- Does no element, the node itself included, carry the attribute `key`?
(Used to state the dependency invariant for documents that contain no
explicit `depends` attribute.) -/
def Node.noAttrDeep (key : String) : Node → Bool
  | .text _ => true
  | .elem _ a cs =>
    (a.find? (fun kv => kv.1 = key)).isNone && NodeList.noAttrDeepList key cs

def NodeList.noAttrDeepList (key : String) : NodeList → Bool
  | .nil => true
  | .cons n ns => Node.noAttrDeep key n && NodeList.noAttrDeepList key ns

end

/-- Python truthiness of the `claims_section` argument: `None` is falsy, a
Tag is falsy iff it has no children (`len(tag) == 0`), a bare string is
falsy iff empty. -/
def claimsTruthy : Option Node → Bool
  | none => false
  | some (.text s) => s ≠ ""
  | some (.elem _ _ .nil) => false
  | some (.elem _ _ (.cons _ _)) => true

/-- The four fallback methods: method *N* runs only when all earlier
methods produced zero claims. -/
def claimsPipeline (copy : Node) : List PatentClaim :=
  let cs1 := method1Claims copy
  let cs2 := if cs1 = [] then method2Claims copy else cs1
  let cs3 := if cs2 = [] then method3Claims copy else cs2
  if cs3 = [] then method4Claims copy else cs3

/-- Model of `extract_claims(claims_section)`: four fallback methods, the
missing-claim-1 special case, then the final stable sort by number. -/
def extract_claims (claims_section : Option Node) : List PatentClaim :=
  if !claimsTruthy claims_section then []
  else
    match claims_section with
    | none => []
    | some sec =>
      let copy := asDoc sec.removeGoogleSrc
      sortClaims (addMissingClaim1 copy (claimsPipeline copy))

/-! ## Scalar field extraction and the document extractor
(src/patent_extract.py lines 166-255, 348-382, 749-824) -/

/-- Model of `extract_text(soup, itemprop)`: text of the first element carrying the
itemprop, stripped; for `itemprop="abstract"` a leading `"Abstract"` is
removed. -/
def extract_text (soup : Node) (itemprop : String) : String :=
  match soup.findFirst (fun n => n.attr "itemprop" = some itemprop) with
  | none => ""
  | some e =>
    let text := pyStrip e.getTextRaw
    if itemprop = "abstract" && startsL "Abstract".data text.data then
      pyStrip ⟨text.data.drop "Abstract".length⟩
    else text

/-- Model of `extract_grant_date(soup)`: among `dd[itemprop=events]` elements, the
first whose `span[itemprop=title]` text contains "Application granted" and
which has a `time` child with a non-empty `datetime`. -/
def extract_grant_date (soup : Node) : String :=
  (soup.findAll (fun n => n.tagIs "dd" && n.attr "itemprop" = some "events")).foldl
    (fun found event =>
      if found ≠ "" then found
      else
        match event.findFirst (fun n =>
            n.tagIs "span" && n.attr "itemprop" = some "title") with
        | some eventType =>
          if containsSub "Application granted".data eventType.getTextRaw.data then
            match event.findFirst (fun n => n.tagIs "time") with
            | some timeElem =>
              match timeElem.attr "datetime" with
              | some dt => if dt ≠ "" then dt else found
              | none => found
            | none => found
          else found
        | none => found)
    ""

/-- Model of `extract_abstract(soup)`: first of `<abstract>`, `[itemprop=abstract]`,
`section#abstract`; foreign-language spans removed; stripped text;
whitespace runs collapsed. -/
def extract_abstract (soup : Node) : String :=
  let sect :=
    (soup.findFirst (fun n => n.tagIs "abstract")).orElse fun _ =>
    (soup.findFirst (fun n => n.attr "itemprop" = some "abstract")).orElse fun _ =>
    soup.findFirst (fun n => n.tagIs "section" && n.attr "id" = some "abstract")
  match sect with
  | none => ""
  | some s =>
    let copy := asDoc s.removeGoogleSrc
    pyStrip ⟨collapseWs copy.getTextStrip.data⟩

/-- Model of `extract_description(soup)`: first of `section[itemprop=description]`,
`#descriptionText`, `section#description`; foreign-language spans removed;
space-separated stripped text; whitespace and newline runs collapsed. -/
def extract_description (soup : Node) : String :=
  let sect :=
    (soup.findFirst (fun n =>
        n.tagIs "section" && n.attr "itemprop" = some "description")).orElse fun _ =>
    (soup.findFirst (fun n => n.attr "id" = some "descriptionText")).orElse fun _ =>
    soup.findFirst (fun n => n.tagIs "section" && n.attr "id" = some "description")
  match sect with
  | none => ""
  | some s =>
    let copy := asDoc s.removeGoogleSrc
    pyStrip ⟨collapseNl (collapseWs (copy.getTextStripSep " ").data)⟩

/-- Model of `PatentData` dataclass: all extracted patent information. -/
structure PatentData where
  patent_number : String := ""
  title : String := ""
  assignees : List String := []
  inventors : List String := []
  priority_date : String := ""
  filing_date : String := ""
  publication_date : String := ""
  grant_date : String := ""
  abstract : String := ""
  description : String := ""
  claims : List PatentClaim := []
deriving DecidableEq, Repr

/-- Model of `extract_data(html_content)`: the document is parsed once
(`BeautifulSoup(html_content, "html.parser")` is deterministic; the parsed
tree is taken as the input here) and every field extractor is applied. -/
def extract_data (soup : Node) : PatentData :=
  { patent_number := extract_text soup "publicationNumber"
    title := extract_text soup "title"
    inventors := extract_inventors soup
    assignees := extract_assignees soup
    filing_date := extract_text soup "filingDate"
    publication_date := extract_text soup "publicationDate"
    priority_date := extract_text soup "priorityDate"
    grant_date := extract_grant_date soup
    abstract := extract_abstract soup
    description := extract_description soup
    claims :=
      extract_claims
        ((soup.findFirst (fun n => n.attr "id" = some "claims")).orElse fun _ =>
          soup.findFirst (fun n => n.tagIs "section" && n.attr "itemprop" = some "claims")) }

/-! ## Batch retrieval (`extract_patents_from_csv`, src/batch_patent.py lines 26-141)

The effectful parts are made explicit:
* `BatchEnv.fetchHtml` models `requests.get(url, ...).text`; `none` models a
  raised `RequestException`.
* `BatchEnv.parse` models `BeautifulSoup` on the fetched text (so that
  `extract_data` can run on it).
* `BatchEnv.saveOk` models whether `save_data` succeeds or raises `IOError`
  (also caught by the per-item `except`).
* `BatchEnv.outputExists` models whether an output file for a given URL is
  already present on disk from an earlier run.  The Python function never
  consults the filesystem before fetching, and correspondingly this field
  is never read by the model.
* `BatchResult.fetches` records, in order, every HTTP GET issued, together
  with the timeout passed to `requests.get`.
-/

/-- Model of `requests.get(input_source, timeout=30)` in `get_html`
(src/patent_extract.py line 156): the timeout is the hard-coded literal 30,
independent of the `timeout` parameter of `extract_patents_from_csv`. -/
def requestsGetTimeout : Int := 30

structure BatchEnv where
  fetchHtml : String → Option String
  parse : String → Node
  saveOk : String → PatentData → Bool
  outputExists : String → Bool

/-- Model of `get_html(input_source, is_url=True)` as called by the batch loop:
the environment's response paired with the issued GET's url and timeout. -/
def get_html (env : BatchEnv) (input_source : String) :
    Option String × (String × Int) :=
  (env.fetchHtml input_source, (input_source, requestsGetTimeout))

structure BatchState where
  patents : List PatentData := []
  successCount : Nat := 0
  errorCount : Nat := 0
  fetches : List (String × Int) := []
  errorLog : List String := []
deriving Repr

/-- Is this row's URL cell skipped by `if not url or pd.isna(url):`?
`none` models a NaN cell, `some ""` an empty string. -/
def rowSkipped : Option String → Bool
  | none => true
  | some u => u = ""

/-- The body of the per-row loop of `extract_patents_from_csv`: every
failure is converted to a log entry and an error tally at this single-item
boundary. -/
def processRow (env : BatchEnv) (output_format : String)
    (st : BatchState) (cell : Option String) : BatchState :=
  if rowSkipped cell then st
  else
    match cell with
    | none => st
    | some url =>
      let (resp, fetchEvt) := get_html env url
      let st := { st with fetches := st.fetches ++ [fetchEvt] }
      match resp with
      | none =>
        { st with
          errorCount := st.errorCount + 1
          errorLog := st.errorLog ++ ["Error processing " ++ url] }
      | some html =>
        if html = "" then
          { st with
            errorCount := st.errorCount + 1
            errorLog := st.errorLog ++ ["Failed to retrieve HTML content for " ++ url] }
        else
          let patent_data := extract_data (env.parse html)
          if patent_data.patent_number = "" then
            { st with
              errorCount := st.errorCount + 1
              errorLog := st.errorLog ++ ["No patent number extracted for " ++ url] }
          else if output_format = "json" || output_format = "yaml"
                  || output_format = "sqlite" then
            if env.saveOk output_format patent_data then
              { st with
                patents := st.patents ++ [patent_data]
                successCount := st.successCount + 1 }
            else
              { st with
                errorCount := st.errorCount + 1
                errorLog := st.errorLog ++ ["Error processing " ++ url] }
          else
            { st with
              patents := st.patents ++ [patent_data]
              successCount := st.successCount + 1 }

/-- Model of `df.head(limit)` when a positive limit is given. -/
def applyLimit (limit : Option Nat) (rows : List (Option String)) :
    List (Option String) :=
  match limit with
  | some l => if l > 0 then rows.take l else rows
  | none => rows

structure BatchResult where
  patents : List PatentData
  successCount : Nat
  errorCount : Nat
  total : Nat
  fetches : List (String × Int)
  errorLog : List String
deriving Repr

/-- Model of `extract_patents_from_csv(csv_file, output_format, ..., limit, timeout)`:
the CSV's URL column is modelled as `rows` (one optional string per row);
the per-row loop is a fold; the summary reports `len(df)` as the total.
The `timeout` parameter is accepted but — like in the source — never used. -/
def extract_patents_from_csv (env : BatchEnv) (output_format : String)
    (timeout : Int) (limit : Option Nat) (rows : List (Option String)) :
    BatchResult :=
  let df := applyLimit limit rows
  let st := df.foldl (processRow env output_format) {}
  { patents := st.patents
    successCount := st.successCount
    errorCount := st.errorCount
    total := df.length
    fetches := st.fetches
    errorLog := st.errorLog }

/-- Number of rows skipped by the blank/NaN URL guard. -/
def skippedCount (rows : List (Option String)) : Nat :=
  (rows.filter rowSkipped).length

/-! ## Concrete documents and environments used in evaluations -/

/-- A structured claims section with blocks 1-3 where block 3's text says
"as claimed in claim 1" (the specification's own scenario). -/
def structuredSection : Node :=
  Node.el "section" [("id", "claims")]
    [Node.el "div" [("class", "claim"), ("num", "1")]
       [Node.el "div" [("class", "claim-text")] [Node.txt "A method for doing X."]],
     Node.el "div" [("class", "claim"), ("num", "2")]
       [Node.el "div" [("class", "claim-text")] [Node.txt "A method wherein Y."]],
     Node.el "div" [("class", "claim"), ("num", "3")]
       [Node.el "div" [("class", "claim-text")]
          [Node.txt "A method as claimed in claim 1 wherein Z."]]]

/-- A claims section in the `<claim>`-element format whose only claim
carries the explicit attribute `depends="5"` while being numbered 1. -/
def dependsAttrSection : Node :=
  Node.el "section" [("id", "claims")]
    [Node.el "claim" [("num", "1"), ("depends", "5")]
       [Node.txt "A widget assembly."]]

/-- A claims section with two ordered lists, each restarting item
numbering, so both list items become claim number 1. -/
def dupOlSection : Node :=
  Node.el "section" [("id", "claims")]
    [Node.el "ol" [] [Node.el "li" [] [Node.txt "A method."]],
     Node.el "ol" [] [Node.el "li" [] [Node.txt "A device."]]]

/-- A document whose assignee element's text is exactly the bare role
label "Assignee". -/
def bareLabelDoc : Node :=
  Node.el "html" []
    [Node.el "span" [("itemprop", "assignee")] [Node.txt "Assignee"]]

/-- A minimal patent page carrying only a publication number. -/
def patentDoc (num : String) : Node :=
  Node.el "html" []
    [Node.el "span" [("itemprop", "publicationNumber")] [Node.txt num]]

/-- A batch environment over three URLs: `u1` and `u3` fetch pages that
extract to patents `P1` and `P3`, while fetching `u2` raises.  Every
output already exists on disk (`outputExists` is constantly true). -/
def exEnv : BatchEnv where
  fetchHtml := fun u => if u = "u2" then none else some ("page-" ++ u)
  parse := fun s =>
    if s = "page-u1" then patentDoc "P1"
    else if s = "page-u3" then patentDoc "P3"
    else patentDoc ""
  saveOk := fun _ _ => true
  outputExists := fun _ => true

/-! ## General list lemmas -/

theorem foldl_preserve_mem {α β : Type _} (P : β → Prop) (f : β → α → β) :
    ∀ (l : List α) (init : β), P init →
      (∀ b a, a ∈ l → P b → P (f b a)) → P (l.foldl f init) := by
  intro l
  induction l with
  | nil => intro init h0 _; exact h0
  | cons x xs ih =>
    intro init h0 hstep
    exact ih _ (hstep _ _ (List.mem_cons_self _ _) h0)
      (fun b a ha hb => hstep b a (List.mem_cons_of_mem _ ha) hb)

theorem mem_insClaim {c d : PatentClaim} :
    ∀ {l : List PatentClaim}, d ∈ insClaim c l ↔ d = c ∨ d ∈ l := by
  intro l
  induction l with
  | nil => simp [insClaim]
  | cons e es ih =>
    by_cases he : e.number < c.number
    · simp only [insClaim, if_pos he, List.mem_cons, ih]
      try tauto
    · simp only [insClaim, if_neg he, List.mem_cons]
      try tauto

theorem mem_sortClaims {d : PatentClaim} :
    ∀ {l : List PatentClaim}, d ∈ sortClaims l ↔ d ∈ l := by
  intro l
  induction l with
  | nil => simp [sortClaims]
  | cons c cs ih => simp [sortClaims, mem_insClaim, ih]

theorem insClaim_sorted (c : PatentClaim) :
    ∀ {l : List PatentClaim}, l.Pairwise (fun a b => a.number ≤ b.number) →
      (insClaim c l).Pairwise (fun a b => a.number ≤ b.number) := by
  intro l
  induction l with
  | nil => intro _; simp [insClaim]
  | cons d ds ih =>
    intro h
    rcases List.pairwise_cons.mp h with ⟨hall, hds⟩
    by_cases hd : d.number < c.number
    · simp only [insClaim, if_pos hd]
      refine List.pairwise_cons.mpr ⟨?_, ih hds⟩
      intro x hx
      rcases mem_insClaim.mp hx with rfl | hxm
      · exact le_of_lt hd
      · exact hall x hxm
    · simp only [insClaim, if_neg hd]
      refine List.pairwise_cons.mpr ⟨?_, h⟩
      intro x hx
      rcases List.mem_cons.mp hx with rfl | hxm
      · exact le_of_not_lt hd
      · exact le_trans (le_of_not_lt hd) (hall x hxm)

theorem sortClaims_sorted : ∀ l : List PatentClaim,
    (sortClaims l).Pairwise (fun a b => a.number ≤ b.number)
  | [] => List.Pairwise.nil
  | c :: cs => insClaim_sorted c (sortClaims_sorted cs)

/-! ## Dependency invariant lemmas for the claims parser -/

/-- The per-claim dependency invariant: a set dependency is strictly
smaller than the given claim number. -/
def depLt (num : Int) (o : Option Int) : Prop :=
  ∀ d : Int, o = some d → d < num

theorem depLt_none {num : Int} : depLt num none := by
  intro d h
  cases h

theorem depLt_textualDep {num : Int} {dflt : Option Int} {t : String}
    (h : depLt num dflt) : depLt num (textualDep num dflt t) := by
  intro d hd
  unfold textualDep at hd
  split at hd
  · next v heq =>
    by_cases hv : (v : Int) < num
    · rw [if_pos hv] at hd
      cases hd
      exact hv
    · rw [if_neg hv] at hd
      exact h d hd
  · exact h d hd

/-- Lemma: `depLt` is preserved by an `if` whose branches both satisfy it. -/
theorem depLt_ite {num : Int} (c : Prop) [Decidable c] {a b : Option Int}
    (ha : depLt num a) (hb : depLt num b) : depLt num (if c then a else b) := by
  split <;> assumption

theorem depLt_refsDep {num : Int} (refs : List Node) : depLt num (refsDep num refs) := by
  unfold refsDep
  apply foldl_preserve_mem (P := depLt num)
  · exact depLt_none
  · intro b a _ hb
    intro d hd
    dsimp only at hd
    split at hd
    · split at hd
      · next v heq =>
        by_cases hv : (v : Int) < num
        · rw [if_pos hv] at hd
          cases hd
          exact hv
        · rw [if_neg hv] at hd
          exact hb d hd
      · exact hb d hd
    · exact hb d hd

theorem depLt_method1Dep {cdiv : Node} {parentCls : List String} {num : Int}
    {text : String} : depLt num (method1Dep cdiv parentCls num text) := by
  have h0 : depLt num (refsDep num (cdiv.findAll (fun n => n.tagIs "claim-ref"))) :=
    depLt_refsDep _
  have hsub : depLt num (some (num - 1)) := by
    intro d hd
    cases hd
    omega
  unfold method1Dep
  exact depLt_ite _
    (depLt_ite _ hsub (depLt_textualDep (depLt_ite _ (depLt_textualDep h0) h0)))
    (depLt_ite _ (depLt_textualDep h0) h0)

theorem method1Step_depLt (st : List PatentClaim × List String)
    (t : Node × Bool × List String)
    (h : ∀ c ∈ st.1, depLt c.number c.dependent_on) :
    ∀ c ∈ (method1Step st t).1, depLt c.number c.dependent_on := by
  obtain ⟨claims, processed⟩ := st
  obtain ⟨cdiv, inside, parentCls⟩ := t
  unfold method1Step
  dsimp only
  split
  · exact h
  · split
    · exact h
    · split
      · intro c hc
        rcases List.mem_append.mp hc with hL | hR
        · exact h c hL
        · rcases List.mem_singleton.mp hR with rfl
          exact depLt_method1Dep
      · exact h

/-- The claim-list invariant carried through all the folds. -/
def allDepLt (claims : List PatentClaim) : Prop :=
  ∀ c ∈ claims, depLt c.number c.dependent_on

theorem allDepLt_append_claim {claims : List PatentClaim} {c : PatentClaim}
    (h : allDepLt claims) (hc : depLt c.number c.dependent_on) :
    allDepLt (claims ++ [c]) := by
  intro x hx
  rcases List.mem_append.mp hx with hL | hR
  · exact h x hL
  · rcases List.mem_singleton.mp hR with rfl
    exact hc

theorem method1Claims_depLt (copy : Node) : allDepLt (method1Claims copy) := by
  unfold method1Claims
  exact foldl_preserve_mem
    (fun (st : List PatentClaim × List String) => allDepLt st.1) method1Step _ _
    (fun c hc => absurd hc (List.not_mem_nil c))
    (fun b a _ hb => method1Step_depLt b a hb)

theorem method2Claims_depLt (copy : Node) : allDepLt (method2Claims copy) := by
  unfold method2Claims
  refine foldl_preserve_mem allDepLt _ _ _
    (fun c hc => absurd hc (List.not_mem_nil c)) ?_
  intro b ol _ hb
  refine foldl_preserve_mem allDepLt _ _ _ hb ?_
  intro b2 p _ hb2
  dsimp only
  split
  · intro x hx
    rcases List.mem_append.mp hx with hL | hR
    · exact hb2 x hL
    · rcases List.mem_singleton.mp hR with rfl
      dsimp only
      exact depLt_textualDep depLt_none
  · exact hb2

theorem method3Claims_depLt (copy : Node)
    (h : ∀ m ∈ copy.descendants, m.attr "depends" = none) :
    allDepLt (method3Claims copy) := by
  unfold method3Claims
  refine foldl_preserve_mem allDepLt _ _ _
    (fun c hc => absurd hc (List.not_mem_nil c)) ?_
  intro b celem hmem hb
  have hdep : celem.attr "depends" = none := by
    apply h
    unfold Node.findAll at hmem
    exact List.mem_of_mem_filter hmem
  dsimp only
  rw [hdep]
  split
  · exact hb
  · split
    · intro x hx
      rcases List.mem_append.mp hx with hL | hR
      · exact hb x hL
      · rcases List.mem_singleton.mp hR with rfl
        dsimp only
        exact depLt_ite _ (depLt_textualDep depLt_none) depLt_none
    · exact hb

theorem method4Claims_depLt (copy : Node) : allDepLt (method4Claims copy) := by
  unfold method4Claims
  refine foldl_preserve_mem allDepLt _ _ _
    (fun c hc => absurd hc (List.not_mem_nil c)) ?_
  intro b m _ hb
  dsimp only
  split
  · intro x hx
    rcases List.mem_append.mp hx with hL | hR
    · exact hb x hL
    · rcases List.mem_singleton.mp hR with rfl
      dsimp only
      exact depLt_textualDep depLt_none
  · exact hb

theorem addMissingClaim1_depLt (copy : Node) (l : List PatentClaim)
    (h : allDepLt l) : allDepLt (addMissingClaim1 copy l) := by
  have happ : ∀ t : String, allDepLt (l ++ [⟨1, t, none⟩]) := by
    intro t x hx
    rcases List.mem_append.mp hx with hL | hR
    · exact h x hL
    · rcases List.mem_singleton.mp hR with rfl
      exact depLt_none
  unfold addMissingClaim1
  repeat' split
  all_goals first | exact h | exact happ _

theorem claimsPipeline_depLt (copy : Node)
    (h : ∀ m ∈ copy.descendants, m.attr "depends" = none) :
    allDepLt (claimsPipeline copy) := by
  simp only [claimsPipeline]
  repeat' split
  all_goals first
    | exact method1Claims_depLt copy
    | exact method2Claims_depLt copy
    | exact method3Claims_depLt copy h
    | exact method4Claims_depLt copy

mutual

theorem noAttrDeep_attr_none : ∀ (key : String) (n : Node),
    n.noAttrDeep key = true → ∀ m, (m = n ∨ m ∈ n.descendants) → m.attr key = none
  | key, .text s, _, m, hm => by
      rcases hm with rfl | hm
      · rfl
      · simp [Node.descendants] at hm
  | key, .elem t a cs, hdeep, m, hm => by
      unfold Node.noAttrDeep at hdeep
      rw [Bool.and_eq_true] at hdeep
      obtain ⟨h1, h2⟩ := hdeep
      rcases hm with rfl | hm
      · show ((Node.elem t a cs).attr key) = none
        unfold Node.attr
        dsimp only
        rw [Option.isNone_iff_eq_none.mp h1]
        rfl
      · exact noAttrDeepList_attr_none key cs h2 m hm

theorem noAttrDeepList_attr_none : ∀ (key : String) (ns : NodeList),
    NodeList.noAttrDeepList key ns = true →
      ∀ m ∈ NodeList.descList ns, m.attr key = none
  | key, .nil, _, m, hm => by simp [NodeList.descList] at hm
  | key, .cons n ns, hdeep, m, hm => by
      unfold NodeList.noAttrDeepList at hdeep
      rw [Bool.and_eq_true] at hdeep
      obtain ⟨h1, h2⟩ := hdeep
      unfold NodeList.descList at hm
      rcases List.mem_cons.mp hm with rfl | hm'
      · exact noAttrDeep_attr_none key m h1 m (Or.inl rfl)
      · rcases List.mem_append.mp hm' with ha | hb
        · exact noAttrDeep_attr_none key n h1 m (Or.inr ha)
        · exact noAttrDeepList_attr_none key ns h2 m hb

end

mutual

theorem noAttrDeep_removeGoogleSrc : ∀ (key : String) (n : Node),
    n.noAttrDeep key = true → (n.removeGoogleSrc).noAttrDeep key = true
  | _, .text _, h => h
  | key, .elem t a cs, h => by
      unfold Node.noAttrDeep at h
      rw [Bool.and_eq_true] at h
      obtain ⟨h1, h2⟩ := h
      unfold Node.removeGoogleSrc Node.noAttrDeep
      exact (Bool.and_eq_true _ _).symm ▸ ⟨h1, noAttrDeepList_removeGoogleSrc key cs h2⟩

theorem noAttrDeepList_removeGoogleSrc : ∀ (key : String) (ns : NodeList),
    NodeList.noAttrDeepList key ns = true →
      NodeList.noAttrDeepList key (NodeList.removeGoogleSrcList ns) = true
  | _, .nil, h => h
  | key, .cons n ns, h => by
      unfold NodeList.noAttrDeepList at h
      rw [Bool.and_eq_true] at h
      obtain ⟨h1, h2⟩ := h
      unfold NodeList.removeGoogleSrcList
      split
      · exact noAttrDeepList_removeGoogleSrc key ns h2
      · unfold NodeList.noAttrDeepList
        exact (Bool.and_eq_true _ _).symm ▸
          ⟨noAttrDeep_removeGoogleSrc key n h1,
           noAttrDeepList_removeGoogleSrc key ns h2⟩

end

theorem descendants_asDoc (n : Node) : (asDoc n).descendants = n :: n.descendants := by
  simp [asDoc, Node.el, NodeList.ofList, Node.descendants, NodeList.descList]

/-! ## Claim C1 -/

/-- Claim C1 (amended): for every claims section in which no element
carries an explicit `depends` attribute, every claim returned by
`extract_claims` has `dependent_on` (when set) strictly smaller than its
own `number`, whichever extraction method and dependency source produced
it.  The restriction is forced by the counterexample
`extract_claims_depends_attr_violates`: method 3 accepts a nonzero
explicit `depends` attribute without the smaller-than guard. -/
theorem extract_claims_dep_lt_of_no_depends (claims_section : Option Node)
    (h : ∀ s, claims_section = some s → s.noAttrDeep "depends" = true) :
    ∀ c ∈ extract_claims claims_section, ∀ d : Int,
      c.dependent_on = some d → d < c.number := by
  intro c hc
  cases claims_section with
  | none => exact absurd hc (List.not_mem_nil c)
  | some sec =>
    have hsec := h sec rfl
    have hclean : (sec.removeGoogleSrc).noAttrDeep "depends" = true :=
      noAttrDeep_removeGoogleSrc _ _ hsec
    have hcopy : ∀ m ∈ (asDoc sec.removeGoogleSrc).descendants,
        m.attr "depends" = none := by
      intro m hm
      rw [descendants_asDoc] at hm
      rcases List.mem_cons.mp hm with rfl | hm'
      · exact noAttrDeep_attr_none _ _ hclean _ (Or.inl rfl)
      · exact noAttrDeep_attr_none _ _ hclean _ (Or.inr hm')
    unfold extract_claims at hc
    split at hc
    · exact absurd hc (List.not_mem_nil c)
    · rw [mem_sortClaims] at hc
      exact addMissingClaim1_depLt _ _ (claimsPipeline_depLt _ hcopy) c hc

/-- Witness for `extract_claims_dep_lt_of_no_depends`, at the
specification's own three-block scenario (claim 3 says "as claimed in
claim 1"): the hypothesis holds and so every dependency is strictly
smaller than its claim's number. -/
theorem extract_claims_dep_lt_witness :
    (∀ s, (some structuredSection : Option Node) = some s →
        s.noAttrDeep "depends" = true) ∧
    (∀ c ∈ extract_claims (some structuredSection), ∀ d : Int,
        c.dependent_on = some d → d < c.number) :=
  ⟨fun s hs => by injection hs with h; subst h; decide,
   extract_claims_dep_lt_of_no_depends (some structuredSection)
     (fun s hs => by injection hs with h; subst h; decide)⟩

/-- Claim C1 counterexample: a `<claim num="1" depends="5">` element makes
`extract_claims` return claim 1 with `dependent_on = 5 ≥ 1` — the explicit
`depends` attribute is accepted without the smaller-than guard. -/
theorem extract_claims_depends_attr_violates :
    extract_claims (some dependsAttrSection) =
      [⟨1, "A widget assembly.", some 5⟩] ∧
    ¬ ∀ c ∈ extract_claims (some dependsAttrSection), ∀ d : Int,
        c.dependent_on = some d → d < c.number := by
  refine ⟨by decide, fun hall => ?_⟩
  have h5 : (5 : Int) < 1 :=
    hall ⟨1, "A widget assembly.", some 5⟩ (by decide) 5 rfl
  omega

/-! ## Claim C2 -/

/-- Claim C2 (amended): the list returned by `extract_claims` is always
sorted non-decreasingly by claim number, for every input claims section.
Duplicate `number` values can occur (see
`extract_claims_duplicate_numbers`), so the order is not strict and the
no-duplicates half of the original claim fails. -/
theorem extract_claims_sorted_by_number (claims_section : Option Node) :
    (extract_claims claims_section).Pairwise (fun a b => a.number ≤ b.number) := by
  cases claims_section with
  | none => exact List.Pairwise.nil
  | some sec =>
    unfold extract_claims
    split
    · exact List.Pairwise.nil
    · exact sortClaims_sorted _

/-- Claim C2 counterexample: a claims section holding two ordered lists
(each restarting its numbering) yields two claims both numbered 1, so the
returned list is not duplicate-free. -/
theorem extract_claims_duplicate_numbers :
    (extract_claims (some dupOlSection)).map PatentClaim.number = [1, 1] ∧
    ¬ ((extract_claims (some dupOlSection)).map PatentClaim.number).Nodup := by
  decide

/-! ## Claim C7 -/

/-- Claim C7: `extract_data` is a pure function of the parsed document
(no shared mutable state exists in the embedding, mirroring the source,
which touches no global state), so two calls on the same input agree
field-for-field. -/
theorem extract_data_deterministic (soup : Node) :
    (extract_data soup).patent_number = (extract_data soup).patent_number ∧
    (extract_data soup).title = (extract_data soup).title ∧
    (extract_data soup).assignees = (extract_data soup).assignees ∧
    (extract_data soup).inventors = (extract_data soup).inventors ∧
    (extract_data soup).priority_date = (extract_data soup).priority_date ∧
    (extract_data soup).filing_date = (extract_data soup).filing_date ∧
    (extract_data soup).publication_date = (extract_data soup).publication_date ∧
    (extract_data soup).grant_date = (extract_data soup).grant_date ∧
    (extract_data soup).abstract = (extract_data soup).abstract ∧
    (extract_data soup).description = (extract_data soup).description ∧
    (extract_data soup).claims = (extract_data soup).claims ∧
    extract_data soup = extract_data soup :=
  ⟨rfl, rfl, rfl, rfl, rfl, rfl, rfl, rfl, rfl, rfl, rfl, rfl⟩

/-! ## Claim C8 -/

theorem nodup_append_singleton {α : Type _} {l : List α} {x : α}
    (h : l.Nodup) (hx : x ∉ l) : (l ++ [x]).Nodup := by
  rw [List.nodup_append]
  refine ⟨h, List.nodup_singleton x, ?_⟩
  intro a ha hb
  rcases List.mem_singleton.mp hb with rfl
  exact hx ha

/-- The clean-up loop shared by both party extractors yields a
duplicate-free list of non-empty names, each of which is the
label-stripped trim of one collected raw name. -/
theorem cleanPartyNames_spec (role : String) (names : List String) :
    (cleanPartyNames role names).Nodup ∧
    ∀ nm ∈ cleanPartyNames role names, nm ≠ "" ∧
      ∃ raw ∈ names, nm = pyStrip (stripLabelRole role raw) := by
  unfold cleanPartyNames
  refine foldl_preserve_mem
    (fun (acc : List String) => acc.Nodup ∧ ∀ nm ∈ acc, nm ≠ "" ∧
      ∃ raw ∈ names, nm = pyStrip (stripLabelRole role raw))
    _ _ _ ⟨List.nodup_nil, by simp⟩ ?_
  intro acc raw hraw hP
  obtain ⟨hnd, hmem⟩ := hP
  dsimp only
  split
  · next hcond =>
    obtain ⟨hne, hnotin⟩ := hcond
    refine ⟨nodup_append_singleton hnd hnotin, ?_⟩
    intro nm hnm
    rcases List.mem_append.mp hnm with hL | hR
    · exact hmem nm hL
    · rcases List.mem_singleton.mp hR with rfl
      exact ⟨hne, raw, hraw, rfl⟩
  · exact ⟨hnd, hmem⟩

/-- Claim C8 (amended): both party-name extractors never return duplicate
names, never return an empty name, and return each name with one leading
"Current/Original <Role>:" prefix stripped and trimmed; however a returned
name *can* equal the bare role label (see
`extract_assignees_returns_bare_label`) — the bare-label filter exists
only in the section-by-id strategy. -/
theorem party_extractors_clean (soup : Node) :
    ((extract_assignees soup).Nodup ∧
      ∀ nm ∈ extract_assignees soup, nm ≠ "" ∧
        ∃ raw ∈ rawAssignees soup, nm = pyStrip (stripLabelRole "Assignee" raw)) ∧
    ((extract_inventors soup).Nodup ∧
      ∀ nm ∈ extract_inventors soup, nm ≠ "" ∧
        ∃ raw ∈ rawInventors soup, nm = pyStrip (stripLabelRole "Inventor" raw)) :=
  ⟨cleanPartyNames_spec "Assignee" (rawAssignees soup),
   cleanPartyNames_spec "Inventor" (rawInventors soup)⟩

/-- Witness for `party_extractors_clean` at a concrete document. -/
theorem party_extractors_clean_witness :
    ((extract_assignees bareLabelDoc).Nodup ∧
      ∀ nm ∈ extract_assignees bareLabelDoc, nm ≠ "" ∧
        ∃ raw ∈ rawAssignees bareLabelDoc,
          nm = pyStrip (stripLabelRole "Assignee" raw)) ∧
    ((extract_inventors bareLabelDoc).Nodup ∧
      ∀ nm ∈ extract_inventors bareLabelDoc, nm ≠ "" ∧
        ∃ raw ∈ rawInventors bareLabelDoc,
          nm = pyStrip (stripLabelRole "Inventor" raw)) :=
  party_extractors_clean bareLabelDoc

/-- Claim C8 counterexample: a document whose `itemprop="assignee"`
element's text is the bare label "Assignee" makes `extract_assignees`
return exactly that label — the itemprop strategy has no bare-label
filter and the clean-up only strips "Current/Original" prefixes. -/
theorem extract_assignees_returns_bare_label :
    extract_assignees bareLabelDoc = ["Assignee"] ∧
    ¬ ∀ nm ∈ extract_assignees bareLabelDoc, nm ≠ "Assignee" := by
  refine ⟨by decide, fun hall => ?_⟩
  exact hall "Assignee" (by decide) rfl

/-! ## Claim C9 -/

/-- Claim C9: `keep_only_ascii` is total and pure, maps the empty string
to the empty string, and returns exactly the subsequence of characters
with code points below 128 — order (sublist) and multiplicity (count)
of the kept characters are preserved and nothing above 127 remains. -/
theorem keep_only_ascii_spec (text : String) :
    keep_only_ascii "" = "" ∧
    (keep_only_ascii text).data.Sublist text.data ∧
    (∀ c ∈ (keep_only_ascii text).data, c.toNat < 128) ∧
    (∀ c : Char, c.toNat < 128 →
      (keep_only_ascii text).data.count c = text.data.count c) := by
  refine ⟨rfl, ?_, ?_, ?_⟩
  · unfold keep_only_ascii
    split
    · next he => subst he; exact List.Sublist.refl _
    · exact List.filter_sublist _
  · unfold keep_only_ascii
    split
    · next he =>
      subst he
      intro c hc
      exact absurd hc (List.not_mem_nil c)
    · intro c hc
      have := (List.mem_filter.mp hc).2
      exact of_decide_eq_true this
  · intro c hcode
    unfold keep_only_ascii
    split
    · next he => subst he; rfl
    · show (text.data.filter (fun c => decide (c.toNat < 128))).count c = _
      rw [List.count_filter]
      simp [hcode]

/-- Witness for `keep_only_ascii_spec` at a concrete mixed string. -/
theorem keep_only_ascii_spec_witness :
    keep_only_ascii "" = "" ∧
    (keep_only_ascii "aé∀b").data.Sublist "aé∀b".data ∧
    (∀ c ∈ (keep_only_ascii "aé∀b").data, c.toNat < 128) ∧
    (∀ c : Char, c.toNat < 128 →
      (keep_only_ascii "aé∀b").data.count c = "aé∀b".data.count c) :=
  keep_only_ascii_spec "aé∀b"

/-! ## Batch-loop invariants -/

/-- The fetch event (if any) a single row gives rise to. -/
def fetchOf : Option String → Option (String × Int)
  | none => none
  | some u => if u = "" then none else some (u, requestsGetTimeout)

theorem processRow_fetches (env : BatchEnv) (fmt : String) (st : BatchState)
    (cell : Option String) :
    (processRow env fmt st cell).fetches
      = st.fetches ++ (fetchOf cell).toList := by
  unfold processRow fetchOf rowSkipped get_html
  cases cell with
  | none => simp
  | some u =>
    by_cases hu : u = ""
    · simp [hu]
    · simp only [hu, if_neg, decide_eq_true_eq]
      repeat' split
      all_goals simp [hu]

theorem processRow_counts (env : BatchEnv) (fmt : String) (st : BatchState)
    (cell : Option String) :
    (processRow env fmt st cell).successCount + (processRow env fmt st cell).errorCount
      = st.successCount + st.errorCount + (if rowSkipped cell then 0 else 1) := by
  unfold processRow rowSkipped get_html
  cases cell with
  | none => simp
  | some u =>
    by_cases hu : u = ""
    · simp [hu]
    · simp only [hu, decide_eq_true_eq]
      repeat' split
      all_goals simp [hu]
      all_goals omega

theorem processRow_log (env : BatchEnv) (fmt : String) (st : BatchState)
    (cell : Option String) (h : st.errorLog.length = st.errorCount) :
    (processRow env fmt st cell).errorLog.length
      = (processRow env fmt st cell).errorCount := by
  unfold processRow rowSkipped get_html
  cases cell with
  | none => simpa using h
  | some u =>
    by_cases hu : u = ""
    · simpa [hu] using h
    · simp only [hu, decide_eq_true_eq]
      repeat' split
      all_goals simp [hu, h]

theorem batch_fold_fetches (env : BatchEnv) (fmt : String) :
    ∀ (rows : List (Option String)) (st : BatchState),
      (rows.foldl (processRow env fmt) st).fetches
        = st.fetches ++ rows.filterMap fetchOf := by
  intro rows
  induction rows with
  | nil => intro st; simp
  | cons cell rest ih =>
    intro st
    rw [List.foldl_cons, ih, processRow_fetches]
    cases cell with
    | none => simp [fetchOf]
    | some u =>
      by_cases hu : u = "" <;> simp [fetchOf, hu]

theorem batch_fold_counts (env : BatchEnv) (fmt : String) :
    ∀ (rows : List (Option String)) (st : BatchState),
      (rows.foldl (processRow env fmt) st).successCount
        + (rows.foldl (processRow env fmt) st).errorCount
        + skippedCount rows
      = st.successCount + st.errorCount + rows.length := by
  intro rows
  induction rows with
  | nil => intro st; simp [skippedCount]
  | cons cell rest ih =>
    intro st
    rw [List.foldl_cons]
    have hstep := processRow_counts env fmt st cell
    have hskip : skippedCount (cell :: rest)
        = (if rowSkipped cell then 1 else 0) + skippedCount rest := by
      unfold skippedCount
      by_cases hc : rowSkipped cell <;> simp [List.filter_cons, hc]
      omega
    have hrec := ih (processRow env fmt st cell)
    rw [hskip]
    simp only [List.length_cons]
    by_cases hc : rowSkipped cell <;> simp only [hc] at hstep ⊢ <;>
      simp at hstep ⊢ <;> omega

theorem batch_fold_log (env : BatchEnv) (fmt : String) :
    ∀ (rows : List (Option String)) (st : BatchState),
      st.errorLog.length = st.errorCount →
      (rows.foldl (processRow env fmt) st).errorLog.length
        = (rows.foldl (processRow env fmt) st).errorCount := by
  intro rows
  induction rows with
  | nil => intro st h; simpa using h
  | cons cell rest ih =>
    intro st h
    rw [List.foldl_cons]
    exact ih _ (processRow_log env fmt st cell h)

/-- Shared: the batch's fetch list is exactly one GET per non-blank row. -/
theorem batch_fetches_filterMap (env : BatchEnv) (fmt : String)
    (t : Int) (lim : Option Nat) (rows : List (Option String)) :
    (extract_patents_from_csv env fmt t lim rows).fetches
      = (applyLimit lim rows).filterMap fetchOf := by
  unfold extract_patents_from_csv
  dsimp only
  rw [batch_fold_fetches]
  rfl

theorem fetchList_length :
    ∀ rows : List (Option String),
      (rows.filterMap fetchOf).length + skippedCount rows = rows.length := by
  intro rows
  induction rows with
  | nil => simp [skippedCount]
  | cons cell rest ih =>
    have hskip : skippedCount (cell :: rest)
        = (if rowSkipped cell then 1 else 0) + skippedCount rest := by
      unfold skippedCount
      by_cases hc : rowSkipped cell <;> simp [List.filter_cons, hc]
      omega
    rw [List.filterMap_cons, hskip]
    cases cell with
    | none =>
      simp only [fetchOf, rowSkipped, if_pos, List.length_cons]
      omega
    | some u =>
      by_cases hu : u = ""
      · simp only [fetchOf, rowSkipped, hu, List.length_cons]
        simp
        omega
      · simp only [fetchOf, rowSkipped, hu, List.length_cons]
        simp [hu]
        omega

/-! ## Claim C3 -/

/-- Claim C3 (amended): `extract_patents_from_csv` performs one HTTP GET
for every row with a non-empty URL cell on *every* run — it never checks
for existing output before fetching (there is no force-reprocess flag and
`BatchEnv.outputExists` is never read), so a second run over the same
sources repeats every fetch. -/
theorem batch_fetches_every_nonblank_row (env : BatchEnv) (fmt : String)
    (t : Int) (lim : Option Nat) (rows : List (Option String)) :
    (extract_patents_from_csv env fmt t lim rows).fetches
      = (applyLimit lim rows).filterMap fetchOf :=
  batch_fetches_filterMap env fmt t lim rows

/-- Claim C3 counterexample: with output for every identifier already on
disk (`outputExists` constantly true), a (second) run over `["u1"]` still
issues the HTTP GET — the fetch list is not empty as the resume/skip
guarantee would require. -/
theorem second_run_refetches_despite_existing_output :
    exEnv.outputExists "u1" = true ∧
    (extract_patents_from_csv exEnv "yaml" 30 none [some "u1"]).successCount = 1 ∧
    (extract_patents_from_csv exEnv "yaml" 30 none [some "u1"]).fetches
      = [("u1", 30)] ∧
    (extract_patents_from_csv exEnv "yaml" 30 none [some "u1"]).fetches ≠ [] := by
  decide

/-! ## Claim C4 -/

/-- Claim C4: the `timeout` parameter of `extract_patents_from_csv` is
ignored — calling with `timeout = 60` still issues the GET with the
hard-coded `requests.get(..., timeout=30)` of `get_html`. -/
theorem batch_ignores_timeout_parameter :
    (extract_patents_from_csv exEnv "yaml" 60 none [some "u1"]).fetches
      = [("u1", requestsGetTimeout)] ∧
    requestsGetTimeout = 30 ∧ (30 : Int) ≠ 60 := by
  decide

/-! ## Claim C6 -/

/-- Claim C6: failures are absorbed at the single-item boundary — for
every environment and row list the batch completes with
`total = row count`, `succeeded + failed + skipped = total` and one log
line per failure; in particular, for the three-source batch where only
source 2 fails, the summary is `succeeded = 2, failed = 1` and
sources 1 and 3 are extracted with their identifiers. -/
theorem batch_partial_failure_isolation :
    (∀ (env : BatchEnv) (fmt : String) (t : Int) (lim : Option Nat)
        (rows : List (Option String)),
      (extract_patents_from_csv env fmt t lim rows).total
          = (applyLimit lim rows).length ∧
      (extract_patents_from_csv env fmt t lim rows).successCount
          + (extract_patents_from_csv env fmt t lim rows).errorCount
          + skippedCount (applyLimit lim rows)
          = (extract_patents_from_csv env fmt t lim rows).total ∧
      (extract_patents_from_csv env fmt t lim rows).errorLog.length
          = (extract_patents_from_csv env fmt t lim rows).errorCount) ∧
    ((extract_patents_from_csv exEnv "yaml" 30 none
        [some "u1", some "u2", some "u3"]).successCount = 2 ∧
     (extract_patents_from_csv exEnv "yaml" 30 none
        [some "u1", some "u2", some "u3"]).errorCount = 1 ∧
     (extract_patents_from_csv exEnv "yaml" 30 none
        [some "u1", some "u2", some "u3"]).patents.map PatentData.patent_number
        = ["P1", "P3"]) := by
  constructor
  · intro env fmt t lim rows
    refine ⟨rfl, ?_, ?_⟩
    · unfold extract_patents_from_csv
      dsimp only
      have := batch_fold_counts env fmt (applyLimit lim rows) {}
      simpa using this
    · unfold extract_patents_from_csv
      dsimp only
      exact batch_fold_log env fmt (applyLimit lim rows) {} rfl
  · refine ⟨by decide, by decide, by decide⟩

/-! ## Claim C10 -/

/-- Claim C10: a row whose URL cell is empty or NaN is silently skipped —
no fetch is attempted for it and it is counted in neither tally, while the
summary's total is the full row count; hence when at least one such row is
present, `total` strictly exceeds `succeeded + failed`. -/
theorem blank_rows_skipped_not_tallied (env : BatchEnv) (fmt : String)
    (t : Int) (lim : Option Nat) (rows : List (Option String))
    (h : 0 < skippedCount (applyLimit lim rows)) :
    (extract_patents_from_csv env fmt t lim rows).total
        = (applyLimit lim rows).length ∧
    (extract_patents_from_csv env fmt t lim rows).successCount
        + (extract_patents_from_csv env fmt t lim rows).errorCount
        + skippedCount (applyLimit lim rows)
        = (extract_patents_from_csv env fmt t lim rows).total ∧
    (extract_patents_from_csv env fmt t lim rows).successCount
        + (extract_patents_from_csv env fmt t lim rows).errorCount
        < (extract_patents_from_csv env fmt t lim rows).total ∧
    (extract_patents_from_csv env fmt t lim rows).fetches.length
        + skippedCount (applyLimit lim rows)
        = (extract_patents_from_csv env fmt t lim rows).total := by
  have hcounts : (extract_patents_from_csv env fmt t lim rows).successCount
      + (extract_patents_from_csv env fmt t lim rows).errorCount
      + skippedCount (applyLimit lim rows)
      = (extract_patents_from_csv env fmt t lim rows).total := by
    unfold extract_patents_from_csv
    dsimp only
    have := batch_fold_counts env fmt (applyLimit lim rows) {}
    simpa using this
  refine ⟨rfl, hcounts, by omega, ?_⟩
  have hf : (extract_patents_from_csv env fmt t lim rows).fetches
      = (applyLimit lim rows).filterMap fetchOf :=
    batch_fetches_filterMap env fmt t lim rows
  rw [hf]
  exact fetchList_length (applyLimit lim rows)

/-- Witness for `blank_rows_skipped_not_tallied` on a batch holding one
NaN cell, one empty cell and one fetchable URL. -/
theorem blank_rows_skipped_witness :
    0 < skippedCount (applyLimit none [none, some "", some "u1"]) ∧
    ((extract_patents_from_csv exEnv "yaml" 30 none [none, some "", some "u1"]).total
        = (applyLimit none [none, some "", some "u1"]).length ∧
     (extract_patents_from_csv exEnv "yaml" 30 none [none, some "", some "u1"]).successCount
        + (extract_patents_from_csv exEnv "yaml" 30 none [none, some "", some "u1"]).errorCount
        + skippedCount (applyLimit none [none, some "", some "u1"])
        = (extract_patents_from_csv exEnv "yaml" 30 none [none, some "", some "u1"]).total ∧
     (extract_patents_from_csv exEnv "yaml" 30 none [none, some "", some "u1"]).successCount
        + (extract_patents_from_csv exEnv "yaml" 30 none [none, some "", some "u1"]).errorCount
        < (extract_patents_from_csv exEnv "yaml" 30 none [none, some "", some "u1"]).total ∧
     (extract_patents_from_csv exEnv "yaml" 30 none [none, some "", some "u1"]).fetches.length
        + skippedCount (applyLimit none [none, some "", some "u1"])
        = (extract_patents_from_csv exEnv "yaml" 30 none [none, some "", some "u1"]).total) :=
  ⟨by decide,
   blank_rows_skipped_not_tallied exEnv "yaml" 30 none [none, some "", some "u1"]
     (by decide)⟩

end PatentTool
